import Mathlib

/-!
Verification development for the tsfpga build-orchestration layer.

The Python sources are embedded shallowly:

* `tsfpga/module.py` — file discovery over conventional module sub-folders
  (`BaseModule._get_file_list`, `get_synthesis_files`, `get_simulation_files`)
  and the lazily cached register list (`BaseModule.registers`,
  `create_regs_vhdl_package`).
* `tsfpga/register_html_generator.py` — the inline markdown substitution pass
  (`RegisterHtmlGenerator._compile_markdown_parser` / `_markdown_parser`).
* `tsfpga/yosys/project.py` — the Yosys/GHDL netlist-build driver
  (`YosysNetlistBuild.__init__`, `_get_top_file`,
  `_get_required_synthesis_files`, `_get_synth_command`, `_create_script`,
  `_ghdl_analyze`, `build`).

Filesystem contents, external process results and the VUnit compile-order
algorithm are parameters of the embedding; machine state that the Python code
mutates (caches, the module-list heap) is threaded explicitly.
-/

namespace Tsfpga

/-! ## File discovery (`tsfpga/module.py`, `BaseModule._get_file_list`) -/

/-- One directory entry as seen by `folder.glob("*")`: its full path (the
identity used by the `files_include` / `files_avoid` sets), its base name
(`file.name`) and whether it is a regular file (`file.is_file()`). -/
structure FSEntry where
  path : String
  name : String
  is_file : Bool
deriving DecidableEq, Repr

/-- A filesystem, as the function taking a folder path to the list of entries
that `folder.glob("*")` yields there, in traversal order.  A folder that does
not exist yields the empty list (`Path.glob` on a non-existent folder is
empty and raises no error). -/
def FileSystem : Type := String → List FSEntry

/-- Python `str.endswith(suffix)`: a character-wise suffix test (executed on
the underlying character lists, which lets concrete instances evaluate). -/
def str_ends_with (s suffix : String) : Bool :=
  suffix.data.isSuffixOf s.data

/-- Python `s[n:]`: drop the first `n` characters. -/
def str_drop (s : String) (n : Nat) : String :=
  String.mk (s.data.drop n)

/-- Python `str.endswith(endings)` where `endings` is a tuple: true when the
string ends with any of the given endings. -/
def endsWithAny (s : String) (endings : List String) : Bool :=
  endings.any (fun e => str_ends_with s e)

/-- The body of the inner loop of `BaseModule._get_file_list`: an entry
survives the four `continue` guards iff it is a regular file, its lowercased
name ends with one of the endings, it is in `files_include` when that set is
given, and it is not in `files_avoid` when that set is given. -/
def fileMatches (file_endings : List String)
    (files_include files_avoid : Option (List String)) (e : FSEntry) : Bool :=
  e.is_file
    && endsWithAny e.name.toLower file_endings
    && (match files_include with
        | none => true
        | some fi => fi.contains e.path)
    && (match files_avoid with
        | none => true
        | some fa => !(fa.contains e.path))

/-- Embeds `BaseModule._get_file_list`: iterate the folders, iterate each folder's
entries, keep those passing the guards, in traversal order. -/
def get_file_list (fs : FileSystem) (folders : List String)
    (file_endings : List String)
    (files_include files_avoid : Option (List String)) : List FSEntry :=
  (folders.flatMap fs).filter (fileMatches file_endings files_include files_avoid)

/-! ## Module file lists (`tsfpga/module.py`, `BaseModule`) -/

/-- Embeds `BaseModule.synthesis_folders`.  The module path is represented by its
path string; joining with `/` mirrors `self.path / "src"` etc. -/
def synthesis_folders (path : String) : List String :=
  [path,
   path ++ "/src",
   path ++ "/rtl",
   path ++ "/hdl/rtl",
   path ++ "/hdl/package"]

/-- Embeds `BaseModule.sim_folders`. -/
def sim_folders (path : String) : List String :=
  [path ++ "/sim"]

/-- Embeds `BaseModule.test_folders`. -/
def test_folders (path : String) : List String :=
  [path ++ "/test",
   path ++ "/rtl/tb"]

/-- Embeds `BaseModule.get_synthesis_files`, restricted to the file list it returns.
`HdlFile.file_endings` lives in `tsfpga/hdl_file.py`, which is not among the
sources at hand, so the ending tuple is kept as the parameter
`hdl_file_endings`; every statement below holds for all values of it.
The `create_regs_vhdl_package` side effect does not alter the returned list
and is modeled separately for the register-caching claims. -/
def get_synthesis_files (fs : FileSystem) (path : String)
    (hdl_file_endings : List String)
    (files_include files_avoid : Option (List String)) : List FSEntry :=
  get_file_list fs (synthesis_folders path) hdl_file_endings
    files_include files_avoid

/-- Embeds `BaseModule.get_simulation_files`: gather from `sim_folders` (plus
`test_folders` when `include_tests`), then prepend the synthesis files. -/
def get_simulation_files (fs : FileSystem) (path : String)
    (hdl_file_endings : List String) (include_tests : Bool)
    (files_include files_avoid : Option (List String)) : List FSEntry :=
  let tfolders := sim_folders path ++
    (if include_tests then test_folders path else [])
  let test_files := get_file_list fs tfolders hdl_file_endings
    files_include files_avoid
  let synthesis_files := get_synthesis_files fs path hdl_file_endings
    files_include files_avoid
  synthesis_files ++ test_files

/-! ## Register caching (`tsfpga/module.py`, `BaseModule.registers`) -/

/-- An `hdl_registers` `RegisterList` object, identified abstractly.  The
class defines neither `__bool__` nor `__len__`, so any instance is truthy in
`if self._registers:`. -/
structure RegisterList where
  id : Nat
deriving DecidableEq, Repr

/-- The register-relevant state of one `BaseModule` instance.
`toml_file_exists` is whether `regs_<name>.toml` exists, `from_toml_result`
is the `RegisterList` that `hdl_registers.parser.toml.from_toml` would
produce for it, and `registers_cache` is the `self._registers` attribute.
`parse_count` is ghost instrumentation: it counts the `from_toml` invocations
and corresponds to no Python attribute. -/
structure BaseModuleState where
  toml_file_exists : Bool
  from_toml_result : RegisterList
  registers_cache : Option RegisterList
  parse_count : Nat
deriving DecidableEq, Repr

/-- Embeds the `BaseModule.registers` property: return the cached object when one
exists (`if self._registers:` — truthy for any `RegisterList`), otherwise
parse the TOML file when it exists, run the no-op `registers_hook`, and
return `self._registers`. -/
def registersProperty (m : BaseModuleState) : Option RegisterList × BaseModuleState :=
  match m.registers_cache with
  | some r => (some r, m)
  | none =>
    let m' :=
      if m.toml_file_exists then
        { m with
            registers_cache := some m.from_toml_result,
            parse_count := m.parse_count + 1 }
      else m
    (m'.registers_cache, m')

/-- Embeds `BaseModule.create_regs_vhdl_package`: `if self.registers is not None:`
reads the property once; each of the four VHDL generator constructions then
reads `self.registers` again. -/
def create_regs_vhdl_package (m : BaseModuleState) : BaseModuleState :=
  match registersProperty m with
  | (none, m1) => m1
  | (some _, m1) =>
    let m2 := (registersProperty m1).2
    let m3 := (registersProperty m2).2
    let m4 := (registersProperty m3).2
    let m5 := (registersProperty m4).2
    m5

/-- The ways a caller can trigger the register machinery: reading the
`registers` property directly, or calling `get_synthesis_files` /
`get_simulation_files`, both of which run `create_regs_vhdl_package`
(`get_simulation_files` delegates to `get_synthesis_files`). -/
inductive RegisterAccess
  | readRegisters
  | synthesisFiles
  | simulationFiles
deriving DecidableEq, Repr

def applyAccess (m : BaseModuleState) : RegisterAccess → BaseModuleState
  | .readRegisters => (registersProperty m).2
  | .synthesisFiles => create_regs_vhdl_package m
  | .simulationFiles => create_regs_vhdl_package m

def runAccesses (m : BaseModuleState) (ops : List RegisterAccess) : BaseModuleState :=
  ops.foldl applyAccess m

/-- The caching invariant: the parser has never run while the cache is empty,
and has run at most once overall. -/
def CacheInv (m : BaseModuleState) : Prop :=
  (m.registers_cache = none → m.parse_count = 0) ∧ m.parse_count ≤ 1


/-! ## Markdown substitution (`tsfpga/register_html_generator.py`)

`RegisterHtmlGenerator._markdown_parser` applies five `re.sub` passes in
order: `\*\*(.*?)\*\*` and `__(.*?)__` to `<b>...</b>`, then `\*(.*?)\*` and
`_(.*?)_` to `<em>...</em>`, then `\\(\*|_)` to the bare character.  Each
pass is embedded directly: `re.sub` scans left to right, replaces each
leftmost non-overlapping match and continues after it; `.*?` is non-greedy
and `.` does not match a newline.  The recursions carry a fuel argument equal
to the remaining text length, which the scans never exhaust. -/

/-- After an opening double delimiter, find the non-greedy match of
`(.*?)dd`: the content up to the first following `dd`, failing on a newline
(which `.` cannot match) or the end of the text.  Returns the content and
the text after the closing delimiter. -/
def findCloseDouble (d : Char) : List Char → Option (List Char × List Char)
  | c1 :: c2 :: rest =>
    if c1 = d ∧ c2 = d then some ([], rest)
    else if c1 = '\n' then none
    else (findCloseDouble d (c2 :: rest)).map (fun p => (c1 :: p.1, p.2))
  | _ => none

/-- After an opening single delimiter, find the non-greedy match of `(.*?)d`. -/
def findCloseSingle (d : Char) : List Char → Option (List Char × List Char)
  | [] => none
  | c :: rest =>
    if c = d then some ([], rest)
    else if c = '\n' then none
    else (findCloseSingle d rest).map (fun p => (c :: p.1, p.2))

/-- One `re.sub` pass for a double-delimiter pattern (`\*\*(.*?)\*\*` or
`__(.*?)__`) with replacement `tagO ++ group ++ tagC`. -/
def subDoubleGo (d : Char) (tagO tagC : List Char) : Nat → List Char → List Char
  | 0, cs => cs
  | _ + 1, [] => []
  | fuel + 1, c1 :: cs =>
    match cs with
    | c2 :: rest =>
      if c1 = d ∧ c2 = d then
        match findCloseDouble d rest with
        | some (content, rest') =>
          tagO ++ content ++ tagC ++ subDoubleGo d tagO tagC fuel rest'
        | none => c1 :: subDoubleGo d tagO tagC fuel cs
      else c1 :: subDoubleGo d tagO tagC fuel cs
    | [] => [c1]

/-- One `re.sub` pass for a single-delimiter pattern (`\*(.*?)\*` or
`_(.*?)_`). -/
def subSingleGo (d : Char) (tagO tagC : List Char) : Nat → List Char → List Char
  | 0, cs => cs
  | _ + 1, [] => []
  | fuel + 1, c :: cs =>
    if c = d then
      match findCloseSingle d cs with
      | some (content, rest') =>
        tagO ++ content ++ tagC ++ subSingleGo d tagO tagC fuel rest'
      | none => c :: subSingleGo d tagO tagC fuel cs
    else c :: subSingleGo d tagO tagC fuel cs

/-- The `re.sub` pass for `escaped_literal_pattern = \\(\*|_)`, replacing the
two-character escape by its second character. -/
def subEscaped : List Char → List Char
  | [] => []
  | '\\' :: c :: rest =>
    if c = '*' ∨ c = '_' then c :: subEscaped rest
    else '\\' :: subEscaped (c :: rest)
  | c :: rest => c :: subEscaped rest

def subDouble (d : Char) (tagO tagC : String) (cs : List Char) : List Char :=
  subDoubleGo d tagO.data tagC.data cs.length cs

def subSingle (d : Char) (tagO tagC : String) (cs : List Char) : List Char :=
  subSingleGo d tagO.data tagC.data cs.length cs

/-- Embeds `RegisterHtmlGenerator._markdown_parser`: the five substitution passes in
source order (strong before emphasis, escapes last). -/
def markdown_parse (text : String) : String :=
  let t := text.data
  let t := subDouble '*' "<b>" "</b>" t
  let t := subDouble '_' "<b>" "</b>" t
  let t := subSingle '*' "<em>" "</em>" t
  let t := subSingle '_' "<em>" "</em>" t
  let t := subEscaped t
  String.mk t

/-! ## Yosys netlist build (`tsfpga/yosys/project.py`, `YosysNetlistBuild`) -/

/-- A VUnit `SourceFile`: its path string (`file.name`, taken here to be an
absolute POSIX path, making `Path(file.name).resolve().absolute().as_posix()`
the identity) and its library name (`file.library.name`). -/
structure SourceFile where
  name : String
  library_name : String
deriving DecidableEq, Repr

/-- The VUnit project handle `self._vunit_proj`: the source files it holds
and the external, undocumented `get_implementation_subset` algorithm, kept
abstract as a function parameter. -/
structure VunitProject where
  source_files : List SourceFile
  implementation_subset : List SourceFile → List SourceFile

/-- VUnit's `VUnit.get_source_file(pattern, library_name)` for the pattern
`"*" + top + ".vhd"` built by `_get_top_file`: fnmatch of `*X` is an
ends-with test; with no match VUnit raises `ValueError` (`Found no file
named ...`), with several matches it also raises. -/
def get_source_file (proj : VunitProject) (top : String)
    (library_name : String) : Except String SourceFile :=
  match proj.source_files.filter
      (fun f => f.library_name == library_name
        && str_ends_with f.name (top ++ ".vhd")) with
  | [] => .error ("Found no file named *" ++ top ++ ".vhd")
  | [f] => .ok f
  | _ => .error ("Found file named *" ++ top ++ ".vhd in multiple files")

/-- The state of one `YosysNetlistBuild` object after `__init__`:
`vhdl_standard` is the string inside the `VHDLStandard` argument (so
`self._vhdl_standard._standard[2:]` is `vhdl_standard.drop 2`);
`library_compile_order` and `implementation_subset` are the two attributes
initialised to `[]` and `None` and filled by
`_get_required_synthesis_files`. -/
structure YosysBuildState where
  name : String
  top : String
  top_module_library : String
  synth_command : Option String
  vhdl_standard : String
  vunit_proj : VunitProject
  library_compile_order : List String
  implementation_subset : Option (List SourceFile)

/-- Embeds `YosysNetlistBuild._get_top_file`. -/
def get_top_file (b : YosysBuildState) : Except String SourceFile :=
  get_source_file b.vunit_proj b.top b.top_module_library

/-- The loop in `_get_required_synthesis_files`: for each file of the subset
in reverse order, prepend its library to the compile order when absent. -/
def compute_compile_order (subset : List SourceFile)
    (order0 : List String) : List String :=
  subset.reverse.foldl
    (fun order f =>
      if order.contains f.library_name then order
      else f.library_name :: order)
    order0

/-- Embeds `YosysNetlistBuild._get_required_synthesis_files`: return the cached
subset when present, else look up the top-level file (raising when it is not
found), ask VUnit for the implementation subset, cache it, and derive the
library compile order. -/
def get_required_synthesis_files (b : YosysBuildState) :
    Except String (List SourceFile × YosysBuildState) :=
  match b.implementation_subset with
  | some subset => .ok (subset, b)
  | none => do
    let top_file ← get_top_file b
    let subset := b.vunit_proj.implementation_subset [top_file]
    .ok (subset,
      { b with
          implementation_subset := some subset,
          library_compile_order :=
            compute_compile_order subset b.library_compile_order })

/-- Embeds `YosysNetlistBuild._get_synth_command`: `"synth"` unless overridden, with
`" -top <top>"` appended. -/
def get_synth_command (b : YosysBuildState) : String :=
  (match b.synth_command with
   | none => "synth"
   | some c => c) ++ " -top " ++ b.top

/-- Embeds `YosysNetlistBuild._get_ghdl_standard_option`:
`"--std=" + self._vhdl_standard._standard[2:]`. -/
def get_ghdl_standard_option (b : YosysBuildState) : String :=
  "--std=" ++ str_drop b.vhdl_standard 2

/-- Embeds `YosysNetlistBuild._create_script`: the GHDL work-library load clause,
one `read_verilog` clause per required `.v` file, then the synthesis
command, joined by `"; "`. -/
def create_script (b : YosysBuildState) (ghdl_output_path : String) :
    Except String (String × YosysBuildState) := do
  let top_file ← get_top_file b
  let head := "ghdl " ++ get_ghdl_standard_option b
    ++ " --work=" ++ top_file.library_name
    ++ " --workdir=" ++ ghdl_output_path
    ++ " -P=" ++ ghdl_output_path
  let (files, b1) ← get_required_synthesis_files b
  let verilog := (files.filter (fun f => str_ends_with f.name ".v")).map
    (fun f => "read_verilog " ++ f.name)
  .ok (String.intercalate "; " (head :: (verilog ++ [get_synth_command b])), b1)

/-- External tool invocations performed during `build`, in order: one
`ghdl -a` subprocess per analyzed file and one Yosys invocation with the
assembled script. -/
inductive ToolEvent
  | ghdl_analyze (f : SourceFile)
  | run_yosys (script : String)
deriving DecidableEq, Repr

/-- The loop of `YosysNetlistBuild._ghdl_analyze` with its threaded `success`
flag (initially `False`): analyze each file, returning at the first failure.
`ghdl_env f` is whether the `ghdl -a` subprocess for `f` exits with code 0. -/
def ghdl_analyze_go (ghdl_env : SourceFile → Bool) :
    List SourceFile → Bool → Bool × List ToolEvent
  | [], success => (success, [])
  | f :: rest, _ =>
    if ghdl_env f then
      let (s, es) := ghdl_analyze_go ghdl_env rest true
      (s, .ghdl_analyze f :: es)
    else (false, [.ghdl_analyze f])

def ghdl_analyze (ghdl_env : SourceFile → Bool)
    (files : List SourceFile) : Bool × List ToolEvent :=
  ghdl_analyze_go ghdl_env files false

/-- Embeds `tsfpga.vivado.build_result.BuildResult` as used here: a name and the
success flag. -/
structure BuildResult where
  name : String
  success : Bool
deriving DecidableEq, Repr

/-- Embeds `YosysNetlistBuild._run_yosys`: assemble the script and invoke Yosys;
`yosys_env script` is whether that invocation exits with code 0. -/
def run_yosys (yosys_env : String → Bool) (b : YosysBuildState)
    (ghdl_output_path : String) :
    Except String (BuildResult × List ToolEvent × YosysBuildState) := do
  let (script, b1) ← create_script b ghdl_output_path
  .ok ({ name := b.name, success := yosys_env script },
    [.run_yosys script], b1)

/-- Embeds `YosysNetlistBuild.build`: analyze the required `.vhd` files with GHDL,
raising `RuntimeError("GHDL analysis failed")` when that fails, then run
Yosys.  The directory creation has no bearing on the result and is not
modeled.  The second component is the trace of external tool invocations. -/
def buildNetlist (ghdl_env : SourceFile → Bool) (yosys_env : String → Bool)
    (b : YosysBuildState) (ghdl_output_path : String) :
    Except String BuildResult × List ToolEvent × YosysBuildState :=
  match get_required_synthesis_files b with
  | .error e => (.error e, [], b)
  | .ok (files, b1) =>
    let vhdl := files.filter (fun f => str_ends_with f.name ".vhd")
    match ghdl_analyze ghdl_env vhdl with
    | (success, events) =>
      if success then
        match run_yosys yosys_env b1 ghdl_output_path with
        | .error e => (.error e, events, b1)
        | .ok (result, yevents, b2) => (.ok result, events ++ yevents, b2)
      else
        (.error "GHDL analysis failed", events, b1)

/-! ## `YosysNetlistBuild.__init__` (modules handling and synth assertion)

`self.modules = ModuleList() if modules is None else modules.copy()` followed
by `self.modules.append(top_module)` is mutation of Python list objects, so
module lists live in an explicit store of lists addressed by reference;
`copy()` allocates a fresh reference with the same value and `append`
mutates only the given reference. -/

/-- A heap of `ModuleList` values, addressed by allocation index.  `α` is the
type of module objects, which the constructor treats opaquely. -/
def ModuleStore (α : Type) : Type := List (List α)

/-- Embeds `ModuleList()`: allocate an empty list. -/
def module_list_new {α : Type} (s : ModuleStore α) : ModuleStore α × Nat :=
  (List.append s [[]], s.length)

def module_list_get {α : Type} (s : ModuleStore α) (r : Nat) : List α :=
  List.getD s r []

/-- Embeds `ModuleList.copy()`: allocate a fresh list with the same elements. -/
def module_list_copy {α : Type} (s : ModuleStore α) (r : Nat) :
    ModuleStore α × Nat :=
  (List.append s [module_list_get s r], s.length)

/-- Embeds `ModuleList.append(m)`: mutate the list at `r` in place. -/
def module_list_append {α : Type} (s : ModuleStore α) (r : Nat) (m : α) :
    ModuleStore α :=
  List.set s r (List.append (module_list_get s r) [m])

/-- Lines 42–44 of `YosysNetlistBuild.__init__`: copy the given module list
(or make an empty one) and append `top_module` to the copy. -/
def yosys_init_modules {α : Type} (s : ModuleStore α) (modules : Option Nat)
    (top_module : α) : ModuleStore α × Nat :=
  let sr := match modules with
    | none => module_list_new s
    | some m => module_list_copy s m
  (module_list_append sr.1 sr.2 top_module, sr.2)

/-- Lines 42–48 of `YosysNetlistBuild.__init__`: the modules handling
followed by
`assert synth_command.startswith("synth")` when a synth command is given;
an `AssertionError` is an `.error` result. -/
def yosys_init {α : Type} (s : ModuleStore α) (modules : Option Nat)
    (top_module : α) (synth_command : Option String) :
    Except String (ModuleStore α × Nat × Option String) :=
  let sr := yosys_init_modules s modules top_module
  match synth_command with
  | some c =>
    if c.startsWith "synth" then .ok (sr.1, sr.2, some c)
    else .error "Must be Yosys synth command"
  | none => .ok (sr.1, sr.2, none)

/-! ## Concrete instances used by witnesses and counterexamples -/

def entryVhd : FSEntry := { path := "m/a.vhd", name := "a.vhd", is_file := true }

def entryTxt : FSEntry := { path := "m/b.txt", name := "b.txt", is_file := true }

/-- A one-folder filesystem listing two entries. -/
def fsSmall : FileSystem := fun d =>
  if d = "m" then [entryVhd, entryTxt] else []

/-- The same filesystem with the two entries traversed in the other order. -/
def fsSmallRev : FileSystem := fun d =>
  if d = "m" then [entryTxt, entryVhd] else []

def synthEntry : FSEntry :=
  { path := "mod/src/a.vhd", name := "a.vhd", is_file := true }

def simEntry : FSEntry :=
  { path := "mod/sim/s.vhd", name := "s.vhd", is_file := true }

def testEntry : FSEntry :=
  { path := "mod/test/t.vhd", name := "t.vhd", is_file := true }

/-- A module folder `mod` with one synthesis file, one sim file and one test
file. -/
def fsMod : FileSystem := fun d =>
  if d = "mod/src" then [synthEntry]
  else if d = "mod/sim" then [simEntry]
  else if d = "mod/test" then [testEntry]
  else []

/-- The single VHDL top-level file of the repository's own
`test_create_script` scenario (`dummy_module`): a file named as the top
entity `hest`, in library `apa`. -/
def fileHest : SourceFile := { name := "hest.vhd", library_name := "apa" }

def projHest : VunitProject :=
  { source_files := [fileHest], implementation_subset := fun files => files }

/-- A `YosysNetlistBuild` as constructed in `test_create_script`: top `hest`,
library `apa`, default synth command, VHDL-2008, fresh caches. -/
def buildHest : YosysBuildState :=
  { name := "hest", top := "hest", top_module_library := "apa",
    synth_command := none, vhdl_standard := "2008",
    vunit_proj := projHest,
    library_compile_order := [], implementation_subset := none }

/-- The state of `buildHest` after `_get_required_synthesis_files` has filled its caches. -/
def buildHestCached : YosysBuildState :=
  { buildHest with
      implementation_subset := some [fileHest],
      library_compile_order := ["apa"] }

/-- A build whose module set supplies no file at all, as in the repository's
own `test_no_modules_doesnt_find_top_level`. -/
def buildEmpty : YosysBuildState :=
  { name := "foo", top := "foo_top", top_module_library := "foo_lib",
    synth_command := none, vhdl_standard := "2008",
    vunit_proj := { source_files := [], implementation_subset := fun files => files },
    library_compile_order := [], implementation_subset := none }

/-! ## Theorems -/

theorem mem_get_file_list {fs : FileSystem} {folders : List String}
    {file_endings : List String} {inc avoid : Option (List String)}
    {e : FSEntry} :
    e ∈ get_file_list fs folders file_endings inc avoid ↔
      (∃ d ∈ folders, e ∈ fs d) ∧ fileMatches file_endings inc avoid e = true := by
  simp [get_file_list, List.mem_filter, List.mem_flatMap]

theorem fileMatches_iff {file_endings : List String}
    {inc avoid : Option (List String)} {e : FSEntry} :
    fileMatches file_endings inc avoid e = true ↔
      (e.is_file = true
        ∧ endsWithAny e.name.toLower file_endings = true
        ∧ (∀ s, inc = some s → e.path ∈ s)
        ∧ (∀ s, avoid = some s → e.path ∉ s)) := by
  cases inc <;> cases avoid <;>
    simp [fileMatches, List.contains, List.elem_iff, and_assoc]

/-- Claim C2: `BaseModule._get_file_list` returns exactly the regular files of
the given folders whose lowercased name ends with one of the given endings,
restricted to the include set when given and with the avoid set removed when
given; non-existent folders (empty listings) contribute nothing; and the
result is determined up to set equality by the per-folder sets of entries,
independent of traversal order. -/
theorem get_file_list_spec (fs fs' : FileSystem) (folders : List String)
    (file_endings : List String) (inc avoid : Option (List String))
    (hperm : ∀ d x, x ∈ fs d ↔ x ∈ fs' d) :
    (∀ e, e ∈ get_file_list fs folders file_endings inc avoid ↔
      ((∃ d ∈ folders, e ∈ fs d) ∧ e.is_file = true
        ∧ endsWithAny e.name.toLower file_endings = true
        ∧ (∀ s, inc = some s → e.path ∈ s)
        ∧ (∀ s, avoid = some s → e.path ∉ s)))
    ∧ (∀ e, e ∈ get_file_list fs folders file_endings inc avoid ↔
        e ∈ get_file_list fs' folders file_endings inc avoid) := by
  constructor
  · intro e
    rw [mem_get_file_list, fileMatches_iff]
  · intro e
    rw [mem_get_file_list, mem_get_file_list]
    constructor
    · rintro ⟨⟨d, hd, he⟩, hm⟩
      exact ⟨⟨d, hd, (hperm d e).mp he⟩, hm⟩
    · rintro ⟨⟨d, hd, he⟩, hm⟩
      exact ⟨⟨d, hd, (hperm d e).mpr he⟩, hm⟩

theorem get_file_list_append {fs : FileSystem} {A B : List String}
    {file_endings : List String} {inc avoid : Option (List String)} :
    get_file_list fs (A ++ B) file_endings inc avoid =
      get_file_list fs A file_endings inc avoid ++
        get_file_list fs B file_endings inc avoid := by
  simp [get_file_list, List.flatMap_append, List.filter_append]

theorem get_simulation_files_false {fs : FileSystem} {path : String}
    {hdl_file_endings : List String} {inc avoid : Option (List String)} :
    get_simulation_files fs path hdl_file_endings false inc avoid =
      get_synthesis_files fs path hdl_file_endings inc avoid ++
        get_file_list fs (sim_folders path) hdl_file_endings inc avoid := by
  simp [get_simulation_files]

theorem get_simulation_files_true {fs : FileSystem} {path : String}
    {hdl_file_endings : List String} {inc avoid : Option (List String)} :
    get_simulation_files fs path hdl_file_endings true inc avoid =
      get_synthesis_files fs path hdl_file_endings inc avoid ++
        (get_file_list fs (sim_folders path) hdl_file_endings inc avoid ++
          get_file_list fs (test_folders path) hdl_file_endings inc avoid) := by
  simp [get_simulation_files, get_file_list_append]

/-- Claim C3: with `include_tests := false`, `get_simulation_files` contains
no file listed in a test folder (provided the filesystem lists each entry in
only one of the relevant folders, as a real directory tree does) and contains
every filtered sim-folder file; with `include_tests := true` (the default) it
is, up to set equality, the union of the synthesis files, the sim-folder
files and the test-folder files under the same include/avoid filters. -/
theorem get_simulation_files_spec (fs : FileSystem) (path : String)
    (hdl_file_endings : List String) (inc avoid : Option (List String))
    (hdisj : ∀ e d d', d ∈ test_folders path →
      d' ∈ synthesis_folders path ++ sim_folders path →
      e ∈ fs d → e ∉ fs d') :
    (∀ e, (∃ d ∈ test_folders path, e ∈ fs d) →
      e ∉ get_simulation_files fs path hdl_file_endings false inc avoid)
    ∧ (∀ e, e ∈ get_file_list fs (sim_folders path) hdl_file_endings inc avoid →
      e ∈ get_simulation_files fs path hdl_file_endings false inc avoid)
    ∧ (∀ e, e ∈ get_simulation_files fs path hdl_file_endings true inc avoid ↔
      (e ∈ get_synthesis_files fs path hdl_file_endings inc avoid
        ∨ e ∈ get_file_list fs (sim_folders path) hdl_file_endings inc avoid
        ∨ e ∈ get_file_list fs (test_folders path) hdl_file_endings inc avoid)) := by
  refine ⟨?_, ?_, ?_⟩
  · rintro e ⟨d, hd, he⟩ hmem
    rw [get_simulation_files_false] at hmem
    rcases List.mem_append.mp hmem with h | h
    · rcases (mem_get_file_list.mp h).1 with ⟨d', hd', he'⟩
      exact hdisj e d d' hd (List.mem_append.mpr (Or.inl hd')) he he'
    · rcases (mem_get_file_list.mp h).1 with ⟨d', hd', he'⟩
      exact hdisj e d d' hd (List.mem_append.mpr (Or.inr hd')) he he'
  · intro e he
    rw [get_simulation_files_false]
    exact List.mem_append.mpr (Or.inr he)
  · intro e
    rw [get_simulation_files_true]
    simp only [List.mem_append]

theorem registersProperty_of_cached {m : BaseModuleState} {r : RegisterList}
    (h : m.registers_cache = some r) :
    registersProperty m = (some r, m) := by
  simp [registersProperty, h]

theorem applyAccess_of_cached {m : BaseModuleState} {r : RegisterList}
    (h : m.registers_cache = some r) (a : RegisterAccess) :
    applyAccess m a = m := by
  cases a <;>
    simp [applyAccess, create_regs_vhdl_package, registersProperty_of_cached h]

theorem runAccesses_of_cached {m : BaseModuleState} {r : RegisterList}
    (h : m.registers_cache = some r) (ops : List RegisterAccess) :
    runAccesses m ops = m := by
  induction ops with
  | nil => rfl
  | cons a ops ih =>
    rw [runAccesses, List.foldl_cons, applyAccess_of_cached h a]
    exact ih

theorem cacheInv_applyAccess {m : BaseModuleState} (h : CacheInv m)
    (a : RegisterAccess) : CacheInv (applyAccess m a) := by
  rcases hc : m.registers_cache with _ | r
  · have hcount : m.parse_count = 0 := h.1 hc
    rcases ht : m.toml_file_exists with _ | _
    · have hfix : registersProperty m = (none, m) := by
        simp [registersProperty, hc, ht]
      cases a <;>
        simp [applyAccess, create_regs_vhdl_package, hfix, h]
    · have hstep : registersProperty m =
          (some m.from_toml_result,
            { m with
                registers_cache := some m.from_toml_result,
                parse_count := m.parse_count + 1 }) := by
        simp [registersProperty, hc, ht]
      have hinv' : CacheInv
          { m with
              registers_cache := some m.from_toml_result,
              parse_count := m.parse_count + 1 } := by
        constructor
        · intro habs
          simp at habs
        · simp [hcount]
      have hcached : registersProperty
          { m with
              registers_cache := some m.from_toml_result,
              parse_count := m.parse_count + 1 } =
            (some m.from_toml_result,
              { m with
                  registers_cache := some m.from_toml_result,
                  parse_count := m.parse_count + 1 }) :=
        registersProperty_of_cached rfl
      cases a
      · simpa [applyAccess, hstep] using hinv'
      all_goals
        simp only [applyAccess, create_regs_vhdl_package, hstep, hcached]
        exact hinv'
  · rw [applyAccess_of_cached hc a]
    exact h

theorem cacheInv_runAccesses {m : BaseModuleState} (h : CacheInv m)
    (ops : List RegisterAccess) : CacheInv (runAccesses m ops) := by
  induction ops generalizing m with
  | nil => exact h
  | cons a ops ih =>
    rw [runAccesses, List.foldl_cons]
    exact ih (cacheInv_applyAccess h a)

/-- Claim C4: starting from a fresh module (empty cache, parser never run),
any sequence of `registers` reads and file-list accessor calls invokes
`from_toml` at most once, and once the cache holds a `RegisterList` `r`,
reading `registers` returns that identical `r` without touching the state,
and every further access sequence leaves the cache at `r`. -/
theorem registers_parsed_at_most_once (m0 : BaseModuleState)
    (ops : List RegisterAccess)
    (_hcache : m0.registers_cache = none) (hcount : m0.parse_count = 0) :
    (runAccesses m0 ops).parse_count ≤ 1
    ∧ (∀ r, (runAccesses m0 ops).registers_cache = some r →
        registersProperty (runAccesses m0 ops) = (some r, runAccesses m0 ops)
        ∧ ∀ more, (runAccesses (runAccesses m0 ops) more).registers_cache = some r) := by
  have hinv : CacheInv (runAccesses m0 ops) :=
    cacheInv_runAccesses ⟨fun _ => hcount, by omega⟩ ops
  refine ⟨hinv.2, fun r hr => ⟨registersProperty_of_cached hr, fun more => ?_⟩⟩
  rw [runAccesses_of_cached hr more]
  exact hr

/-- Witness for C4 at a concrete module and access sequence. -/
theorem registers_parsed_at_most_once_witness :
    (runAccesses
        { toml_file_exists := true, from_toml_result := ⟨7⟩,
          registers_cache := none, parse_count := 0 }
        [.synthesisFiles, .readRegisters, .simulationFiles]).parse_count ≤ 1
    ∧ (∀ r, (runAccesses
        { toml_file_exists := true, from_toml_result := ⟨7⟩,
          registers_cache := none, parse_count := 0 }
        [.synthesisFiles, .readRegisters, .simulationFiles]).registers_cache = some r →
        registersProperty (runAccesses
          { toml_file_exists := true, from_toml_result := ⟨7⟩,
            registers_cache := none, parse_count := 0 }
          [.synthesisFiles, .readRegisters, .simulationFiles]) =
            (some r, runAccesses
              { toml_file_exists := true, from_toml_result := ⟨7⟩,
                registers_cache := none, parse_count := 0 }
              [.synthesisFiles, .readRegisters, .simulationFiles])
        ∧ ∀ more, (runAccesses (runAccesses
            { toml_file_exists := true, from_toml_result := ⟨7⟩,
              registers_cache := none, parse_count := 0 }
            [.synthesisFiles, .readRegisters, .simulationFiles]) more).registers_cache
              = some r) :=
  registers_parsed_at_most_once
    { toml_file_exists := true, from_toml_result := ⟨7⟩,
      registers_cache := none, parse_count := 0 }
    [.synthesisFiles, .readRegisters, .simulationFiles] rfl rfl

/-- Witness for C2 at a concrete filesystem, folder list and filters. -/
theorem get_file_list_spec_witness :
    (∀ e, e ∈ get_file_list fsSmall ["m"] ["vhd"] none none ↔
      ((∃ d ∈ ["m"], e ∈ fsSmall d) ∧ e.is_file = true
        ∧ endsWithAny e.name.toLower ["vhd"] = true
        ∧ (∀ s, (none : Option (List String)) = some s → e.path ∈ s)
        ∧ (∀ s, (none : Option (List String)) = some s → e.path ∉ s)))
    ∧ (∀ e, e ∈ get_file_list fsSmall ["m"] ["vhd"] none none ↔
        e ∈ get_file_list fsSmallRev ["m"] ["vhd"] none none) :=
  get_file_list_spec fsSmall fsSmallRev ["m"] ["vhd"] none none
    (by
      intro d x
      by_cases hd : d = "m" <;>
        simp [fsSmall, fsSmallRev, hd, or_comm])

/-- Witness for C3 at a concrete module folder tree. -/
theorem get_simulation_files_spec_witness :
    (∀ e, (∃ d ∈ test_folders "mod", e ∈ fsMod d) →
      e ∉ get_simulation_files fsMod "mod" ["vhd"] false none none)
    ∧ (∀ e, e ∈ get_file_list fsMod (sim_folders "mod") ["vhd"] none none →
      e ∈ get_simulation_files fsMod "mod" ["vhd"] false none none)
    ∧ (∀ e, e ∈ get_simulation_files fsMod "mod" ["vhd"] true none none ↔
      (e ∈ get_synthesis_files fsMod "mod" ["vhd"] none none
        ∨ e ∈ get_file_list fsMod (sim_folders "mod") ["vhd"] none none
        ∨ e ∈ get_file_list fsMod (test_folders "mod") ["vhd"] none none)) :=
  get_simulation_files_spec fsMod "mod" ["vhd"] none none
    (by
      have h1 : fsMod "mod/test" = [testEntry] := rfl
      have h2 : fsMod "mod/rtl/tb" = [] := rfl
      have h3 : fsMod "mod" = [] := rfl
      have h4 : fsMod "mod/src" = [synthEntry] := rfl
      have h5 : fsMod "mod/rtl" = [] := rfl
      have h6 : fsMod "mod/hdl/rtl" = [] := rfl
      have h7 : fsMod "mod/hdl/package" = [] := rfl
      have h8 : fsMod "mod/sim" = [simEntry] := rfl
      intro e d d' hd hd' he
      fin_cases hd <;> fin_cases hd' <;>
        simp_all [test_folders, synthesis_folders, sim_folders,
          synthEntry, simEntry, testEntry])

/-- Claim C5 (code bug): on the spec's example input the markdown pass
produces `\<em>literal\</em>` for the escaped-asterisk part, not the
documented literal `*literal*`: the emphasis pattern has no lookbehind for a
backslash and runs before the escape pass, contradicting the parser's own
docstring (`Literal asterisks or underscores are escaped`). -/
theorem markdown_escaped_literal_bug :
    markdown_parse "**bold** and *em* and \\*literal\\*" =
      "<b>bold</b> and <em>em</em> and \\<em>literal\\</em>"
    ∧ ("<b>bold</b> and <em>em</em> and \\<em>literal\\</em>"
        == "<b>bold</b> and <em>em</em> and *literal*") = false := by
  exact ⟨rfl, by decide⟩

theorem ghdl_analyze_go_eq_true {ghdl_env : SourceFile → Bool}
    {files : List SourceFile} {s0 : Bool}
    (h : (ghdl_analyze_go ghdl_env files s0).1 = true) :
    ∀ f ∈ files, ghdl_env f = true := by
  induction files generalizing s0 with
  | nil => intro f hf; cases hf
  | cons g rest ih =>
    intro f hf
    rcases hg : ghdl_env g with _ | _
    · rw [ghdl_analyze_go, if_neg (by simp [hg])] at h
      cases h
    · rcases List.mem_cons.mp hf with rfl | hf'
      · exact hg
      · rw [ghdl_analyze_go, if_pos hg] at h
        exact ih h f hf'

theorem ghdl_analyze_go_events {ghdl_env : SourceFile → Bool}
    {files : List SourceFile} {s0 : Bool} :
    ∀ ev ∈ (ghdl_analyze_go ghdl_env files s0).2, ∃ f, ev = .ghdl_analyze f := by
  induction files generalizing s0 with
  | nil => intro ev hev; cases hev
  | cons g rest ih =>
    intro ev hev
    rcases hg : ghdl_env g with _ | _
    · rw [ghdl_analyze_go, if_neg (by simp [hg])] at hev
      rcases List.mem_singleton.mp hev with rfl
      exact ⟨g, rfl⟩
    · rw [ghdl_analyze_go, if_pos hg] at hev
      rcases List.mem_cons.mp hev with rfl | hev'
      · exact ⟨g, rfl⟩
      · exact ih ev hev'

/-- Claim C6: when the GHDL analysis of any required `.vhd` file exits with a
non-zero code, `build` fails with the `GHDL analysis failed` error, and the
invocation trace contains no Yosys run at all. -/
theorem build_aborts_on_analysis_failure (ghdl_env : SourceFile → Bool)
    (yosys_env : String → Bool) (b : YosysBuildState) (p : String)
    (files : List SourceFile) (b1 : YosysBuildState) (f : SourceFile)
    (hreq : get_required_synthesis_files b = .ok (files, b1))
    (hf : f ∈ files.filter (fun f => str_ends_with f.name ".vhd"))
    (henv : ghdl_env f = false) :
    (buildNetlist ghdl_env yosys_env b p).1 = .error "GHDL analysis failed"
    ∧ ∀ s, ToolEvent.run_yosys s ∉ (buildNetlist ghdl_env yosys_env b p).2.1 := by
  have hfail : (ghdl_analyze ghdl_env
      (files.filter (fun f => str_ends_with f.name ".vhd"))).1 = false := by
    rcases hres : (ghdl_analyze ghdl_env
        (files.filter (fun f => str_ends_with f.name ".vhd"))).1 with _ | _
    · rfl
    · have := ghdl_analyze_go_eq_true hres f hf
      rw [henv] at this
      cases this
  have hbuild : buildNetlist ghdl_env yosys_env b p =
      (.error "GHDL analysis failed",
        (ghdl_analyze ghdl_env
          (files.filter (fun f => str_ends_with f.name ".vhd"))).2, b1) := by
    rw [buildNetlist, hreq]
    simp [hfail]
  constructor
  · rw [hbuild]
  · intro s hs
    rw [hbuild] at hs
    rcases ghdl_analyze_go_events (ToolEvent.run_yosys s) hs with ⟨g, hg⟩
    cases hg

/-- Witness for C6: the `test_create_script` build with a GHDL environment in
which every analysis fails. -/
theorem build_aborts_on_analysis_failure_witness :
    (buildNetlist (fun _ => false) (fun _ => true) buildHest "ghdl").1 =
      .error "GHDL analysis failed"
    ∧ ∀ s, ToolEvent.run_yosys s ∉
        (buildNetlist (fun _ => false) (fun _ => true) buildHest "ghdl").2.1 :=
  build_aborts_on_analysis_failure (fun _ => false) (fun _ => true)
    buildHest "ghdl" [fileHest] buildHestCached fileHest rfl (by decide) rfl

/-- Claim C7: on a fresh build whose project supplies no source file matching
the top-level pattern in the top module's library,
`_get_required_synthesis_files` raises the VUnit not-found error instead of
returning any file list, in particular not an empty one. -/
theorem top_level_not_found (b : YosysBuildState)
    (hcache : b.implementation_subset = none)
    (hnone : ∀ f ∈ b.vunit_proj.source_files,
      (f.library_name == b.top_module_library
        && str_ends_with f.name (b.top ++ ".vhd")) = false) :
    get_required_synthesis_files b =
      .error ("Found no file named *" ++ b.top ++ ".vhd")
    ∧ ∀ l b', get_required_synthesis_files b ≠ .ok (l, b') := by
  have hfilter : b.vunit_proj.source_files.filter
      (fun f => f.library_name == b.top_module_library
        && str_ends_with f.name (b.top ++ ".vhd")) = [] := by
    rw [List.filter_eq_nil_iff]
    intro f hf
    simp [hnone f hf]
  have herr : get_required_synthesis_files b =
      .error ("Found no file named *" ++ b.top ++ ".vhd") := by
    rw [get_required_synthesis_files, hcache]
    simp only [get_top_file, get_source_file, hfilter]
    rfl
  exact ⟨herr, fun l b' h => by rw [herr] at h; cases h⟩

/-- Witness for C7: the module-less build of
`test_no_modules_doesnt_find_top_level`. -/
theorem top_level_not_found_witness :
    get_required_synthesis_files buildEmpty =
      .error ("Found no file named *" ++ "foo_top" ++ ".vhd")
    ∧ ∀ l b', get_required_synthesis_files buildEmpty ≠ .ok (l, b') :=
  top_level_not_found buildEmpty rfl (by intro f hf; cases hf)

theorem implementation_subset_some {b : YosysBuildState} {s : List SourceFile}
    {b' : YosysBuildState}
    (h : get_required_synthesis_files b = .ok (s, b')) :
    b'.implementation_subset = some s := by
  rcases hb : b.implementation_subset with _ | subset
  · rw [get_required_synthesis_files, hb] at h
    rcases htf : get_top_file b with e | tf
    · simp only [htf] at h
      cases h
    · simp only [htf] at h
      have h' : (Except.ok (b.vunit_proj.implementation_subset [tf],
          { b with
              implementation_subset :=
                some (b.vunit_proj.implementation_subset [tf]),
              library_compile_order :=
                compute_compile_order (b.vunit_proj.implementation_subset [tf])
                  b.library_compile_order }) :
            Except String (List SourceFile × YosysBuildState)) = .ok (s, b') := h
      rcases Prod.mk.injEq .. ▸ Except.ok.inj h' with ⟨hs, hb'⟩
      rw [← hb', ← hs]
  · rw [get_required_synthesis_files, hb] at h
    rcases Prod.mk.injEq .. ▸ Except.ok.inj h with ⟨hs, hb'⟩
    rw [← hb', hb, hs]

/-- Claim C8: once `_get_required_synthesis_files` has produced a subset and
state, calling it again on that state returns the identical cached subset and
leaves the state (including the library compile order) untouched; it does so
for any replacement of the external subset algorithm, i.e. without
recomputation; and `_create_script` never alters the state further. -/
theorem implementation_subset_cached (b : YosysBuildState)
    (s : List SourceFile) (b' : YosysBuildState)
    (h : get_required_synthesis_files b = .ok (s, b')) :
    get_required_synthesis_files b' = .ok (s, b')
    ∧ (∀ g, get_required_synthesis_files
        { b' with vunit_proj :=
            { b'.vunit_proj with implementation_subset := g } } =
        .ok (s, { b' with vunit_proj :=
            { b'.vunit_proj with implementation_subset := g } }))
    ∧ (∀ p scr b'', create_script b' p = .ok (scr, b'') → b'' = b') := by
  have hcache : b'.implementation_subset = some s := implementation_subset_some h
  have hfix : get_required_synthesis_files b' = .ok (s, b') := by
    rw [get_required_synthesis_files, hcache]
  refine ⟨hfix, ?_, ?_⟩
  · intro g
    rw [get_required_synthesis_files]
    simp only [hcache]
  · intro p scr b'' hcs
    rw [create_script] at hcs
    rcases htf : get_top_file b' with e | tf
    · simp only [htf] at hcs
      cases hcs
    · simp only [htf, hfix] at hcs
      rcases Prod.mk.injEq .. ▸ Except.ok.inj hcs with ⟨-, hb''⟩
      exact hb''.symm

/-- Witness for C8 at the `test_create_script` build. -/
theorem implementation_subset_cached_witness :
    get_required_synthesis_files buildHestCached = .ok ([fileHest], buildHestCached)
    ∧ (∀ g, get_required_synthesis_files
        { buildHestCached with vunit_proj :=
            { buildHestCached.vunit_proj with implementation_subset := g } } =
        .ok ([fileHest], { buildHestCached with vunit_proj :=
            { buildHestCached.vunit_proj with implementation_subset := g } }))
    ∧ (∀ p scr b'', create_script buildHestCached p = .ok (scr, b'') →
        b'' = buildHestCached) :=
  implementation_subset_cached buildHest [fileHest] buildHestCached (by rfl)

/-- Claim C9: the constructor of `YosysNetlistBuild` succeeds exactly when
the supplied `synth_command` is absent or starts with `"synth"`; a supplied
command not starting with `"synth"` trips the assertion, and no other input
does. -/
theorem synth_command_assertion {α : Type} (s : ModuleStore α)
    (modules : Option Nat) (top_module : α) (synth_command : Option String) :
    (yosys_init s modules top_module synth_command).isOk =
      (match synth_command with
       | none => true
       | some c => c.startsWith "synth") := by
  rcases synth_command with _ | c
  · rfl
  · rcases hc : c.startsWith "synth" with _ | _ <;>
      simp [yosys_init, hc, Except.isOk, Except.toBool]

/-- Claim C10: the constructor copies the caller's module list before
appending: afterwards the caller's list is unchanged, the build's own list is
the caller's elements with `top_module` appended, and with no modules
argument it is exactly `[top_module]`. -/
theorem init_modules_spec {α : Type} (s : ModuleStore α) (m : Nat) (tm : α)
    (hm : m < s.length) :
    module_list_get (yosys_init_modules s (some m) tm).1 m = module_list_get s m
    ∧ module_list_get (yosys_init_modules s (some m) tm).1
        (yosys_init_modules s (some m) tm).2 = module_list_get s m ++ [tm]
    ∧ (∀ j, j < s.length →
        module_list_get (yosys_init_modules s none tm).1 j = module_list_get s j)
    ∧ module_list_get (yosys_init_modules s none tm).1
        (yosys_init_modules s none tm).2 = [tm] := by
  have hget_app : ∀ (v : List α), module_list_get (List.append s [v]) s.length = v := by
    intro v
    simp [module_list_get, List.getD, List.getElem?_append_right]
  have hget_lt : ∀ (v : List α) (j : Nat), j < s.length →
      module_list_get (List.append s [v]) j = module_list_get s j := by
    intro v j hj
    simp [module_list_get, List.getD, List.getElem?_append_left hj]
  have hset_ne : ∀ (l : List (List α)) (w : List α) (j : Nat), j ≠ s.length →
      module_list_get (List.set l s.length w) j = module_list_get l j := by
    intro l w j hj
    simp [module_list_get, List.getD, List.getElem?_set_ne (Ne.symm hj)]
  have hset_eq : ∀ (v w : List α),
      module_list_get (List.set (List.append s [v]) s.length w) s.length = w := by
    intro v w
    simp [module_list_get, List.getD, List.getElem?_set_self,
      List.length_append]
  refine ⟨?_, ?_, ?_, ?_⟩
  · show module_list_get
      (module_list_append (List.append s [module_list_get s m]) s.length tm) m = _
    rw [module_list_append, hset_ne _ _ m (by omega), hget_lt _ m hm]
  · show module_list_get
      (module_list_append (List.append s [module_list_get s m]) s.length tm)
        s.length = _
    rw [module_list_append, hget_app, hset_eq]
    rfl
  · intro j hj
    show module_list_get
      (module_list_append (List.append s [[]]) s.length tm) j = _
    rw [module_list_append, hset_ne _ _ j (by omega), hget_lt _ j hj]
  · show module_list_get
      (module_list_append (List.append s [[]]) s.length tm) s.length = _
    rw [module_list_append, hget_app, hset_eq]
    rfl

/-- Witness for C10 at a concrete two-element store. -/
theorem init_modules_spec_witness :
    module_list_get (yosys_init_modules [[1, 2]] (some 0) 5).1 0 =
      module_list_get [[1, 2]] 0
    ∧ module_list_get (yosys_init_modules [[1, 2]] (some 0) 5).1
        (yosys_init_modules [[1, 2]] (some 0) 5).2 =
          module_list_get [[1, 2]] 0 ++ [5]
    ∧ (∀ j, j < List.length [[1, 2]] →
        module_list_get (yosys_init_modules [[1, 2]] none 5).1 j =
          module_list_get [[1, 2]] j)
    ∧ module_list_get (yosys_init_modules [[1, 2]] none 5).1
        (yosys_init_modules [[1, 2]] none 5).2 = [5] :=
  init_modules_spec [[1, 2]] 0 5 (by decide)

/-- Claim C1 (code bug): for the single-VHDL-file scenario of the
repository's own `test_create_script` (one file `hest.vhd` in library `apa`,
top `hest`, default synth command, VHDL-2008, workdir `ghdl`), the script
builder produces exactly the GHDL load clause followed by
`synth -top hest` — with no static-timing-analysis clause, while that test
(and the claim) require the trailing `; sta`. -/
theorem create_script_missing_sta :
    create_script buildHest "ghdl" =
      .ok ("ghdl --std=08 --work=apa --workdir=ghdl -P=ghdl; synth -top hest",
        buildHestCached)
    ∧ ("ghdl --std=08 --work=apa --workdir=ghdl -P=ghdl; synth -top hest"
        == "ghdl --std=08 --work=apa --workdir=ghdl -P=ghdl; synth -top hest; sta")
      = false := by
  exact ⟨rfl, by decide⟩

end Tsfpga
